import Mathlib

/-!
Verification of the Elasticsearch indexer lambda
(`src/lambdas/es/indexer/index.py`): a shallow embedding of the document
queue, its bulk-flush and one-generation error-replay protocol, the
metadata transform, the bounded S3 retry loop, and the byte-level text
truncation, together with theorems settling the specification claims.

Python dictionaries of string keys are embedded as association lists
(`MetaMap`); Python `None`-able values as `Option`; machine integers as
`Nat`.  Network collaborators (the S3 client and the Elasticsearch `bulk`
helper) are passed in as explicit oracles describing their per-call
outcome, exactly at the interface the source consumes.
-/

/-- Constants from the top of `index.py`. -/
def CONTENT_INDEX_EXTS : List String :=
  [".csv", ".html", ".ipynb", ".json", ".md", ".rmd", ".txt", ".xml"]

/-- `CHUNK_LIMIT_BYTES = 10_000_000` (per-sub-batch byte ceiling for `bulk`). -/
def CHUNK_LIMIT_BYTES : Nat := 10000000

/-- `DOC_SIZE_LIMIT_BYTES = 10_000`. -/
def DOC_SIZE_LIMIT_BYTES : Nat := 10000

/-- `ELASTIC_TIMEOUT = 20`. -/
def ELASTIC_TIMEOUT : Nat := 20

/-- `MAX_RETRY = 10`. -/
def MAX_RETRY : Nat := 10

/-- `OBJECT_DELETE = "ObjectRemoved:Delete"`. -/
def OBJECT_DELETE : String := "ObjectRemoved:Delete"

/-- `QUEUE_LIMIT_BYTES = 100_000_000`. -/
def QUEUE_LIMIT_BYTES : Nat := 100000000

/-- `RETRY_429 = 5`. -/
def RETRY_429 : Nat := 5

/-- `TEST_EVENT = "s3:TestEvent"`. -/
def TEST_EVENT : String := "s3:TestEvent"

/-- A Python dict of strings (leaf JSON values abstracted to their text). -/
def MetaMap : Type := List (String × String)

instance : DecidableEq MetaMap := by
  unfold MetaMap
  infer_instance

instance : Membership (String × String) MetaMap := by
  unfold MetaMap
  infer_instance

/-- Python truthiness of a dict: nonempty. -/
def MetaMap.truthy (m : MetaMap) : Bool :=
  match m with
  | [] => false
  | _ :: _ => true

/-- The parsed `meta["helium"]` dict, split by the three keys
`transform_meta` pops (`user_meta`, `comment`, `target`); `rest` holds
every other key of the dict.  `none` in a field means the key is absent. -/
structure Helium where
  user_meta : Option MetaMap
  comment : Option String
  target : Option String
  rest : MetaMap
deriving DecidableEq

/-- Model of `json.dumps` on an embedded dict: an opaque serialization,
used only as searchable text inside `meta_text`. -/
def dumps (m : MetaMap) : String :=
  String.intercalate (", ") (m.map (fun kv => kv.1 ++ (": ") ++ kv.2))

/-- Result dict of `transform_meta` (lines 327-333). -/
structure MetaOut where
  system_meta : Option MetaMap
  user_meta : MetaMap
  comment : String
  target : String
  meta_text : String
deriving DecidableEq

/-- `transform_meta(meta)` (lines 308-333).  The argument is
`meta.get("helium")`, the only key the function reads; `none` embeds an
absent (or `None`) entry, in which case `"system_meta"` is Python `None`.
When the helium dict is present, the three special keys are popped (with
falsy values collapsed to the defaults by `or ""`), the remaining dict
becomes `system_meta`, and `meta_text` joins the nonempty parts. -/
def transform_meta (helium : Option Helium) : MetaOut :=
  match helium with
  | none =>
      { system_meta := none
        user_meta := []
        comment := ""
        target := ""
        meta_text := String.intercalate (" ") ["", ""] }
  | some h =>
      let user_meta := h.user_meta.getD []
      let comment := h.comment.getD ""
      let target := h.target.getD ""
      let parts := [comment, target]
        ++ (if h.rest.truthy then [dumps h.rest] else [])
        ++ (if user_meta.truthy then [dumps user_meta] else [])
      { system_meta := some h.rest
        user_meta := user_meta
        comment := comment
        target := target
        meta_text := String.intercalate (" ") parts }

/-- The document body dict built by `DocumentQueue.append` (lines 75-100).
Fields are the dict keys of the source; `system` embeds the key written by
the replay pass of `send_all` (line 180), which no freshly appended
document has (`none`). -/
structure Document where
  _id : String
  _index : String
  _op_type : String
  _type : String
  etag : String
  ext : String
  event : String
  size : Nat
  text : String
  key : String
  last_modified : String
  updated : String
  version_id : Option String
  system_meta : Option MetaMap
  user_meta : MetaMap
  comment : String
  target : String
  meta_text : String
  system : Option MetaMap
deriving DecidableEq

/-- Python `f"{x}"` of a `None`-able string. -/
def optStr (v : Option String) : String :=
  match v with
  | none => "None"
  | some s => s

/-- The queue state of `DocumentQueue.__init__` (lines 47-52): pending
document list, the `retry_errors` generation flag, the running size
total, and the lambda `context` (reduced to the remaining-time number it
supplies, which this model does not otherwise consume). -/
structure DocumentQueue where
  queue : List Document
  retry_errors : Bool
  size : Nat
  context : Nat
deriving DecidableEq

/-- Arguments of one `DocumentQueue.append` call (lines 54-67), plus the
`updated` timestamp that the source reads from `datetime.utcnow()`.
`meta` is the parsed `"helium"` entry of the metadata dict (the only part
`transform_meta` reads); `none` embeds `meta=None` or an absent key. -/
structure AppendArgs where
  event_type : String
  size : Nat
  meta : Option Helium
  last_modified : String
  bucket : String
  ext : String
  key : String
  text : String
  etag : String
  version_id : Option String
  updated : String

/-- The body dict assembled by `append` (lines 75-100), including the
`meta_text` join with the key (line 100). -/
def buildBody (a : AppendArgs) : Document :=
  let m := transform_meta a.meta
  { _id := a.key ++ (":") ++ optStr a.version_id
    _index := a.bucket
    _op_type := if a.event_type = OBJECT_DELETE then "delete" else "index"
    _type := "_doc"
    etag := a.etag
    ext := a.ext
    event := a.event_type
    size := a.size
    text := a.text
    key := a.key
    last_modified := a.last_modified
    updated := a.updated
    version_id := a.version_id
    system_meta := m.system_meta
    user_meta := m.user_meta
    comment := m.comment
    target := m.target
    meta_text := m.meta_text ++ (" ") ++ a.key
    system := none }

/-- The `error` payload of one per-item bulk error: a dict (whose
`"type"` entry, `none` when absent, is all the classifier reads) or a
bare string — "can be dict or string *sigh*" (line 171). -/
inductive ErrInfo where
  | dict (etype : Option String)
  | str (s : String)
deriving DecidableEq

/-- The `error.get("index", {})` sub-dict of one bulk error descriptor:
`inner.get("_id")` and `inner.get("error")` (lines 172-174). -/
structure BulkInner where
  _id : Option String
  error : Option ErrInfo
deriving DecidableEq

/-- One element of the `errors` list returned by `bulk`: `none` embeds a
descriptor without an `"index"` key (e.g. a delete error), for which
`inner = {}` and both `.get` calls yield `None`. -/
def BulkError : Type := Option BulkInner

/-- Bulk-call oracle: the outcome of the `bulk(elastic, iter(queue), ...)`
call for a given pending list.  `.ok errors` is the per-item error list it
returns; `.error ()` embeds a fatal transport/session exception, which the
broad `except` of `send_all` absorbs. -/
def BulkOracle : Type := List Document → Except Unit (List BulkError)

/-- Does `needle` start `hay`? (helper for the Python `in` substring test). -/
def startsWithSeq : List Char → List Char → Bool
  | _, [] => true
  | [], _ :: _ => false
  | h :: t, n :: ns => h = n && startsWithSeq t ns

/-- Is `needle` a contiguous subsequence of `hay`? -/
def hasSubSeq (hay needle : List Char) : Bool :=
  match hay with
  | [] => startsWithSeq [] needle
  | _ :: t => startsWithSeq hay needle || hasSubSeq t needle

/-- Python `needle in hay` on strings. -/
def strContains (hay needle : String) : Bool :=
  hasSubSeq hay.data needle.data

/-- `next(doc for doc in self.queue if doc["_id"] == doc_id)` followed by
the in-place mutation `replay['user_meta'] = replay['system'] = {}`
(lines 179-180).  Returns the queue with the first matching document
mutated, together with that mutated document; `none` embeds the
`StopIteration` raised when no document matches. -/
def findMutate (docs : List Document) (doc_id : String) :
    Option (List Document × Document) :=
  match docs with
  | [] => none
  | d :: ds =>
    if d._id = doc_id then
      let d' := { d with user_meta := [], system := some [] }
      some (d' :: ds, d')
    else
      match findMutate ds doc_id with
      | none => none
      | some (ds', r) => some (d :: ds', r)

/-- One iteration of the `for error in errors` classification loop
(lines 169-181) against the current pending list.  Returns the updated
pending list and the document appended to the error queue (if any);
`none` embeds an uncaught `StopIteration` from the replay lookup. -/
def classifyError (docs : List Document) (e : BulkError) :
    Option (List Document × Option Document) :=
  match e with
  | none => some (docs, none)
  | some inner =>
    match inner.error with
    | some (ErrInfo.dict etype) =>
      if strContains (etype.getD ("")) ("mapper_parsing_exception") then
        match inner._id with
        | none => none
        | some did =>
          match findMutate docs did with
          | none => none
          | some (docs', r) => some (docs', some r)
      else some (docs, none)
    | _ => some (docs, none)

/-- Accumulated result of the classification loop: the (in-place mutated)
pending list, the documents enqueued into the error queue via
`append_document`, and whether the loop ran to completion (`ok = false`
embeds the `StopIteration` that aborts `send_all` through its broad
`except`, after the mutations already applied). -/
structure ClassifyResult where
  docs : List Document
  replays : List Document
  ok : Bool

/-- The whole classification loop over the error list. -/
def processErrors (docs : List Document) : List BulkError → ClassifyResult
  | [] => { docs := docs, replays := [], ok := true }
  | e :: rest =>
    match classifyError docs e with
    | none => { docs := docs, replays := [], ok := false }
    | some (docs', r) =>
      let res := processErrors docs' rest
      { docs := res.docs, replays := r.toList ++ res.replays, ok := res.ok }

/-- `DocumentQueue.send_all` (lines 115-188).  Besides the final state of
the flushed queue, it returns the list of `DocumentQueue` objects
constructed during the call (each snapshotted once the classification
loop has filled it) — the observable that the replay-depth claims are
about.  Branches: empty queue returns immediately; a fatal bulk exception
is absorbed leaving the state untouched; otherwise `self.size = 0`, and a
first-generation queue (`retry_errors = true`) builds
`DocumentQueue(self.context, retry_errors=False)`, classifies the errors
into it, and flushes it recursively (skipped when the classification
raised). -/
def DocumentQueue.send_all (oracle : BulkOracle) (q : DocumentQueue) :
    DocumentQueue × List DocumentQueue :=
  if q.queue.isEmpty then (q, [])
  else
    match oracle q.queue with
    | Except.error _ => (q, [])
    | Except.ok errors =>
      if _hr : q.retry_errors = true then
        let pr := processErrors q.queue errors
        let error_queue : DocumentQueue :=
          { queue := pr.replays, retry_errors := false, size := 0
            context := q.context }
        if pr.ok then
          let inner := DocumentQueue.send_all oracle error_queue
          ({ queue := pr.docs, retry_errors := q.retry_errors, size := 0
             context := q.context }, error_queue :: inner.2)
        else
          ({ queue := pr.docs, retry_errors := q.retry_errors, size := 0
             context := q.context }, [error_queue])
      else
        ({ q with size := 0 }, [])
termination_by (if q.retry_errors then 1 else 0)
decreasing_by simp_all

/-- `DocumentQueue.append` (lines 54-105): add the capped size when
`text` is truthy, build and enqueue the body dict, and synchronously
flush when the running total exceeds `QUEUE_LIMIT_BYTES`.  The returned
`Bool` records whether the automatic flush fired. -/
def DocumentQueue.append (oracle : BulkOracle) (q : DocumentQueue)
    (a : AppendArgs) : DocumentQueue × Bool :=
  let size' := if a.text = "" then q.size else q.size + min a.size DOC_SIZE_LIMIT_BYTES
  let q1 : DocumentQueue :=
    { q with size := size', queue := q.queue ++ [buildBody a] }
  if QUEUE_LIMIT_BYTES < q1.size then
    ((DocumentQueue.send_all oracle q1).1, true)
  else
    (q1, false)

/-- Fold a sequence of `append` calls over a queue. -/
def appendAll (oracle : BulkOracle) (q : DocumentQueue) :
    List AppendArgs → DocumentQueue
  | [] => q
  | a :: rest => appendAll oracle (q.append oracle a).1 rest

/-- The capped running-size contribution of one `append` call: the
source adds `min(size, DOC_SIZE_LIMIT_BYTES)` only when `text` is truthy
(line 69-72). -/
def contrib (a : AppendArgs) : Nat :=
  if a.text = "" then 0 else min a.size DOC_SIZE_LIMIT_BYTES

/-- UTF-8 encoding of one code point (the bytes `str.encode("utf-8")`
produces for it), as Nat arithmetic on the scalar value. -/
def charUtf8 (c : Char) : List Nat :=
  let n := c.toNat
  if n < 128 then [n]
  else if n < 2048 then [192 + n / 64, 128 + n % 64]
  else if n < 65536 then [224 + n / 4096, 128 + n / 64 % 64, 128 + n % 64]
  else [240 + n / 262144, 128 + n / 4096 % 64, 128 + n / 64 % 64, 128 + n % 64]

/-- `string.encode("utf-8")` over the code-point sequence of the string. -/
def encodeUtf8 : List Char → List Nat
  | [] => []
  | c :: cs => charUtf8 c ++ encodeUtf8 cs

/-- Is `b` a UTF-8 continuation byte (`0x80..0xBF`)? -/
def isCont (b : Nat) : Bool := 128 ≤ b && b ≤ 191

/-- Valid second byte of a three-byte sequence with lead `b0` (the
tightened ranges exclude overlong forms after `0xE0` and surrogates
after `0xED`, as CPython's decoder does). -/
def cont3ok (b0 b1 : Nat) : Bool :=
  if b0 = 224 then 160 ≤ b1 && b1 ≤ 191
  else if b0 = 237 then 128 ≤ b1 && b1 ≤ 159
  else isCont b1

/-- Valid second byte of a four-byte sequence with lead `b0` (the
tightened ranges exclude overlong forms after `0xF0` and code points past
`U+10FFFF` after `0xF4`). -/
def cont4ok (b0 b1 : Nat) : Bool :=
  if b0 = 240 then 144 ≤ b1 && b1 ≤ 191
  else if b0 = 244 then 128 ≤ b1 && b1 ≤ 143
  else isCont b1

/-- One step of `bytes.decode("utf-8", "ignore")` at lead byte `b0` with
remaining input `rest`: the decoded character (`none` when the sequence
at `b0` is ill-formed or truncated and its bytes are skipped), and how
many bytes of `rest` the step consumes beyond `b0` itself.  As in
CPython, an invalid sequence consumes exactly its longest valid prefix
(at least the lead byte) and decoding resumes at the offending byte. -/
def utf8DecodeStep (b0 : Nat) (rest : List Nat) : Option Char × Nat :=
  if b0 < 128 then (some (Char.ofNat b0), 0)
  else if 194 ≤ b0 && b0 ≤ 223 then
    match rest with
    | [] => (none, 0)
    | b1 :: _ =>
      if isCont b1 then (some (Char.ofNat ((b0 - 192) * 64 + (b1 - 128))), 1)
      else (none, 0)
  else if 224 ≤ b0 && b0 ≤ 239 then
    match rest with
    | [] => (none, 0)
    | [b1] => if cont3ok b0 b1 then (none, 1) else (none, 0)
    | b1 :: b2 :: _ =>
      if cont3ok b0 b1 then
        if isCont b2 then
          (some (Char.ofNat ((b0 - 224) * 4096 + (b1 - 128) * 64 + (b2 - 128))), 2)
        else (none, 1)
      else (none, 0)
  else if 240 ≤ b0 && b0 ≤ 244 then
    match rest with
    | [] => (none, 0)
    | [b1] => if cont4ok b0 b1 then (none, 1) else (none, 0)
    | [b1, b2] =>
      if cont4ok b0 b1 then
        if isCont b2 then (none, 2) else (none, 1)
      else (none, 0)
    | b1 :: b2 :: b3 :: _ =>
      if cont4ok b0 b1 then
        if isCont b2 then
          if isCont b3 then
            (some (Char.ofNat ((b0 - 240) * 262144 + (b1 - 128) * 4096 +
              (b2 - 128) * 64 + (b3 - 128))), 3)
          else (none, 2)
        else (none, 1)
      else (none, 0)
  else (none, 0)

/-- `bytes.decode("utf-8", "ignore")`: decode, skipping the bytes of any
ill-formed or truncated sequence. -/
def decodeIgnore : List Nat → List Char
  | [] => []
  | b0 :: rest =>
    (utf8DecodeStep b0 rest).1.toList
      ++ decodeIgnore (rest.drop (utf8DecodeStep b0 rest).2)
termination_by b => b.length
decreasing_by simp [List.length_drop]; omega

/-- `trim_to_bytes(string, limit)` (lines 505-511): return the string
unchanged when its encoding fits, else decode the first `limit` encoded
bytes leniently.  Strings are embedded as their code-point sequences. -/
def trim_to_bytes (s : List Char) (limit : Nat) : List Char :=
  let encoded := encodeUtf8 s
  if encoded.length ≤ limit then s
  else decodeIgnore (encoded.take limit)

/-- `trim_to_bytes` at its default `limit=DOC_SIZE_LIMIT_BYTES`, on
`String`. -/
def trimStr (s : String) : String :=
  String.mk (trim_to_bytes s.data DOC_SIZE_LIMIT_BYTES)

/-- Encoded byte length of a string (`len(s.encode("utf-8"))`). -/
def encBytes (s : String) : Nat := (encodeUtf8 s.data).length

/-- Outcome of the S3 `get_object` body read for one content fetch:
`ok` carries the UTF-8 decoding of the returned bytes, `decodeFail`
embeds a `UnicodeDecodeError`, and `fetchFail` a `retry_s3` call that
exhausted its attempt/deadline budget and raised. -/
inductive FetchResult where
  | ok (body : String)
  | decodeFail
  | fetchFail

/-- `get_plain_text` (lines 278-295): return the decoded body; a
`UnicodeDecodeError` is caught and yields `""`; a retry-exhaustion
exception from `retry_s3` is not caught and propagates
(`Except.error`). -/
def get_plain_text : FetchResult → Except Unit String
  | FetchResult.ok body => Except.ok body
  | FetchResult.decodeFail => Except.ok ("")
  | FetchResult.fetchFail => Except.error ()

/-- `get_notebook_cells` (lines 250-276): extract cell text from the
fetched notebook (`extract` stands for the external
`nbformat`-based `extract_text`); every exception, including retry
exhaustion, is caught and yields `""`. -/
def get_notebook_cells (fetch : FetchResult) (extract : String → String) : String :=
  match fetch with
  | FetchResult.ok body => extract body
  | FetchResult.decodeFail => ""
  | FetchResult.fetchFail => ""

/-- `get_contents` (lines 190-217): only allow-listed extensions get a
body; `.ipynb` goes through `get_notebook_cells` then `trim_to_bytes`;
every other listed extension returns `get_plain_text` unchanged. -/
def get_contents (ext : String) (fetch : FetchResult)
    (extract : String → String) : Except Unit String :=
  if ext ∈ CONTENT_INDEX_EXTS then
    if ext = ".ipynb" then
      Except.ok (trimStr (get_notebook_cells fetch extract))
    else
      get_plain_text fetch
  else
    Except.ok ("")

/-- Python truthiness of a `None`-able string. -/
def truthy (v : Option String) : Bool :=
  match v with
  | none => false
  | some s => s ≠ ""

/-- The keyword arguments of the S3 call built by the inner `call()` of
`retry_s3` (lines 469-501). -/
structure S3Request where
  bucket : String
  key : String
  range : Option String
  version_id : Option String
  if_match : Option String
deriving DecidableEq

/-- Request construction of `call()` (lines 469-501): no `Range` when
`size == 0`; otherwise the version-pinned call carries
`Range=f"bytes=0-{limit}"` and the etag-pinned call `Range=f"0-{limit}"`. -/
def call_request (bucket key : String) (size limit : Nat) (etag : String)
    (version_id : Option String) : S3Request :=
  if size = 0 then
    if truthy version_id then
      { bucket := bucket, key := key, range := none
        version_id := version_id, if_match := none }
    else
      { bucket := bucket, key := key, range := none
        version_id := none, if_match := some etag }
  else
    if truthy version_id then
      { bucket := bucket, key := key
        range := some ("bytes=0-" ++ toString limit)
        version_id := version_id, if_match := none }
    else
      { bucket := bucket, key := key
        range := some ("0-" ++ toString limit)
        version_id := none, if_match := some etag }

/-- Backoff of `wait_exponential(multiplier=2, min=4, max=30)` after a
failed attempt number `attempt` (attempts count from 1): the
exponential `2 * 2 ** attempt` clamped into `[4, 30]`. -/
def waitExp (attempt : Nat) : Nat := max 4 (min (2 * 2 ^ attempt) 30)

/-- Modelled from the spec: the retry combinator wrapped around `call()`
by the external `tenacity` library, as configured at lines 464-468 —
after each failed attempt, stop when the elapsed time has reached the
remaining deadline or the attempt count has reached `MAX_RETRY`,
whichever comes first, else sleep the exponential backoff and try again.
The oracle says which attempt numbers succeed (eventual-consistency
races); attempts are counted from 1 and treated as instantaneous, so the
elapsed clock advances by the backoff sleeps. -/
def retryFrom (oracle : Nat → Bool) (deadline : Nat)
    (attempt elapsed : Nat) : Option Nat :=
  if oracle attempt then some attempt
  else if _h : MAX_RETRY ≤ attempt ∨ deadline ≤ elapsed then none
  else retryFrom oracle deadline (attempt + 1) (elapsed + waitExp attempt)
termination_by MAX_RETRY - attempt
decreasing_by simp only [MAX_RETRY] at *; omega

/-- The whole retry loop of `retry_s3` from its first attempt; returns
the successful attempt number, or `none` when the budget is exhausted
and the `RetryError` propagates. -/
def retry_s3_attempts (oracle : Nat → Bool) (time_remaining : Nat) : Option Nat :=
  retryFrom oracle time_remaining 1 0

/-- One inbound S3 change record as the handler reads it (lines
358-366), after URL decoding. -/
structure S3EventRecord where
  eventName : String
  bucket : String
  key : String
  version_id : Option String
  etag : String

/-- The fields the handler reads from the `head_object` result (lines
378-380); `helium` is the parsed `meta["helium"]` block (lines 408-412). -/
structure HeadResult where
  contentLength : Nat
  lastModified : String
  helium : Option Helium

/-- Oracles for one record's externals: the metadata probe (argument:
the `size` value passed to `retry_s3`, which the range logic consumes;
`none` embeds retry exhaustion), the content fetch, the notebook text
extractor, and `os.path.splitext(...)[1].lower()`. -/
structure RecordOracles where
  headO : S3EventRecord → Nat → Option HeadResult
  contentO : S3EventRecord → FetchResult
  extractO : String → String
  extO : String → String
  bulkO : BulkOracle
  updatedAt : String

/-- Per-record processing of `handler` (lines 356-429), threading the
function-local variable `size` as `Option Nat` (`none` = not yet
assigned).  The probe call at lines 368-376 evaluates `size` as an
argument *before* the only assignment to it at line 378, so when the
variable is unassigned the record raises `UnboundLocalError`, which the
per-record `except` absorbs, leaving both the variable and the queue
untouched. -/
def processRecord (o : RecordOracles) (st : Option Nat × DocumentQueue)
    (r : S3EventRecord) : Option Nat × DocumentQueue :=
  match st with
  | (none, q) => (none, q)
  | (some sz, q) =>
    match o.headO r sz with
    | none => (some sz, q)
    | some head =>
      let size := head.contentLength
      if r.eventName = OBJECT_DELETE then
        let q' := (q.append o.bulkO
          { event_type := r.eventName, size := 0, meta := none
            last_modified := head.lastModified, bucket := r.bucket
            ext := o.extO r.key, key := r.key, text := ""
            etag := r.etag, version_id := r.version_id
            updated := o.updatedAt }).1
        (some size, q')
      else
        match get_contents (o.extO r.key) (o.contentO r) o.extractO with
        | Except.error _ => (some size, q)
        | Except.ok text =>
          let q' := (q.append o.bulkO
            { event_type := r.eventName, size := size, meta := head.helium
              last_modified := head.lastModified, bucket := r.bucket
              ext := o.extO r.key, key := r.key, text := text
              etag := r.etag, version_id := r.version_id
              updated := o.updatedAt }).1
          (some size, q')

/-- The per-message batch loop of `handler`: a fresh first-generation
`DocumentQueue(context)` folded over the records, returning the queue
that the trailing `batch_processor.send_all()` flushes. -/
def processBatch (o : RecordOracles) (context : Nat)
    (records : List S3EventRecord) : DocumentQueue :=
  (records.foldl (processRecord o)
    (none, { queue := [], retry_errors := true, size := 0, context := context })).2

/-- A bulk call that succeeds with no per-item errors. -/
def oracleNil : BulkOracle := fun _ => Except.ok []

/-- Concrete append arguments for a document carrying nonempty nested
metadata: the helium block has a `user_meta` sub-dict and a leftover key,
so the built document has nonempty `system_meta` and `user_meta`. -/
def argsD : AppendArgs :=
  { event_type := "ObjectCreated:Put"
    size := 100
    meta := some { user_meta := some [("k1", "v1")], comment := some "c"
                   target := some "t", rest := [("extra", "x")] }
    last_modified := "2020-01-01T00:00:00"
    bucket := "bkt"
    ext := ".txt"
    key := "data.txt"
    text := "hello"
    etag := "etag1"
    version_id := some "v1"
    updated := "2020-01-02T00:00:00" }

/-- The document `append` builds from `argsD`. -/
def docD : Document := buildBody argsD

/-- `docD` after the in-place replay mutation of line 180. -/
def docDmut : Document := { docD with user_meta := [], system := some [] }

/-- One bulk error descriptor: an `index` operation rejection for
`docD`'s identity whose error payload is a dict with
`type = "mapper_parsing_exception"` — the exact shape the replay
classifier matches. -/
def errD : BulkError :=
  some { _id := some (argsD.key ++ (":") ++ optStr argsD.version_id)
         error := some (ErrInfo.dict (some ("mapper_parsing_exception"))) }

/-- A bulk call that reports exactly the `errD` rejection. -/
def oracleD : BulkOracle := fun _ => Except.ok [errD]

/-- A first-generation queue holding exactly `docD`, reached by one
`append` from a fresh queue (no flush fires: the capped contribution is
`min 100 10000 = 100`). -/
def qD : DocumentQueue :=
  (DocumentQueue.append oracleD
    { queue := [], retry_errors := true, size := 0, context := 17 } argsD).1

/-- Append arguments with a declared size of 500 bytes but empty
extracted text (every DELETE event, and every non-allow-listed
extension, produces such a document). -/
def argsEmptyText : AppendArgs :=
  { event_type := "ObjectCreated:Put"
    size := 500
    meta := none
    last_modified := "2020-01-01T00:00:00"
    bucket := "bkt"
    ext := ".bin"
    key := "blob.bin"
    text := ""
    etag := "etag2"
    version_id := none
    updated := "2020-01-02T00:00:00" }

/-- Append arguments with a declared size of 500 bytes and nonempty text. -/
def argsSmallText : AppendArgs := { argsEmptyText with text := "x", key := "a.txt" }

/-- Append arguments with a declared size of 40,000,000 bytes and
nonempty text (capped contribution `min 40000000 10000 = 10000`). -/
def argsBig : AppendArgs := { argsEmptyText with size := 40000000, text := "x" }

/-- A first-generation queue holding one document with a nonzero running
total, as left by one `append` of `argsSmallText`. -/
def qC5 : DocumentQueue :=
  (DocumentQueue.append oracleNil
    { queue := [], retry_errors := true, size := 0, context := 3 } argsSmallText).1

/-- A second-generation (error-replay) queue holding one document. -/
def qSecondGen : DocumentQueue :=
  { queue := [buildBody argsSmallText], retry_errors := false, size := 0
    context := 9 }

/-- A string of 10,001 ASCII characters (the body a ranged CONTENT fetch
returns for a plain-text object of at least 10,001 bytes: the range
header `bytes=0-10000` is inclusive of byte 10000). -/
def longA : String := String.mk (List.replicate 10001 'a')

/-! ## Theorems -/

/-- Flushing a queue whose `retry_errors` flag is off never constructs a
`DocumentQueue` object: the whole classification-and-replay block is
guarded by `if self.retry_errors:`. -/
theorem send_all_snd_eq_nil (oracle : BulkOracle) (q : DocumentQueue)
    (h : q.retry_errors = false) : (DocumentQueue.send_all oracle q).2 = [] := by
  unfold DocumentQueue.send_all
  split
  · rfl
  · split
    · rfl
    · split
      · simp_all
      · rfl

/-- Claim C1: a document queue constructed as an error-generation
(second-generation) queue, when flushed via `send_all`, never constructs
another error-generation queue; moreover every queue any `send_all` call
constructs has `retry_errors = false`, so replay depth is capped at one
level and a third-generation queue never exists. -/
theorem error_generation_queue_never_spawns (oracle : BulkOracle)
    (q : DocumentQueue) (h : q.retry_errors = false) :
    (DocumentQueue.send_all oracle q).2 = [] ∧
    ∀ q' eq, eq ∈ (DocumentQueue.send_all oracle q').2 → eq.retry_errors = false := by
  refine ⟨send_all_snd_eq_nil oracle q h, ?_⟩
  intro q' eq hmem
  rw [DocumentQueue.send_all] at hmem
  revert hmem
  split
  · intro hmem
    simp at hmem
  · split
    · intro hmem
      simp at hmem
    · split
      · dsimp only
        split
        · intro hmem
          rw [send_all_snd_eq_nil oracle _ rfl] at hmem
          simp at hmem
          subst hmem
          rfl
        · intro hmem
          simp at hmem
          subst hmem
          rfl
      · intro hmem
        simp at hmem

/-- Witness for C1: flushing a concrete second-generation queue holding
one document constructs no queue at all. -/
theorem error_generation_queue_never_spawns_witness :
    (DocumentQueue.send_all oracleNil qSecondGen).2 = [] :=
  (error_generation_queue_never_spawns oracleNil qSecondGen rfl).1

/-- A fold of `processRecord` that starts with the `size` variable
unassigned stays exactly where it started. -/
theorem foldl_processRecord_none (o : RecordOracles) (records : List S3EventRecord)
    (q : DocumentQueue) :
    records.foldl (processRecord o) (none, q) = (none, q) := by
  induction records with
  | nil => rfl
  | cons r rest ih => simpa [processRecord] using ih

/-- Claim C3: per-record processing evaluates the local `size` as an
argument of the metadata-probe call (line 373) before its only
assignment (line 378), so with the variable unassigned the record raises
`UnboundLocalError` and is skipped with the queue untouched; hence the
first-generation queue is empty at end of batch and the final
`send_all` returns without doing anything. -/
theorem handler_unbound_size_empty_batch (o : RecordOracles) (context : Nat)
    (records : List S3EventRecord) (oracle : BulkOracle) :
    (∀ q r, processRecord o (none, q) r = (none, q)) ∧
    (processBatch o context records).queue = [] ∧
    DocumentQueue.send_all oracle (processBatch o context records) =
      (processBatch o context records, []) := by
  refine ⟨fun q r => rfl, ?_, ?_⟩
  · rw [processBatch, foldl_processRecord_none]
  · rw [processBatch, foldl_processRecord_none]
    rw [DocumentQueue.send_all]
    rfl

/-- Counterexample to claim C4 as stated: appending one document with a
declared size of 500 bytes but empty text leaves the running total at 0,
not at `min 500 10000 = 500` — the source only adds the capped size
under `if text:` (line 69). -/
theorem size_total_counterexample_empty_text :
    (appendAll oracleNil
        { queue := [], retry_errors := true, size := 0, context := 0 }
        [argsEmptyText]).size = 0 ∧
    min argsEmptyText.size DOC_SIZE_LIMIT_BYTES = 500 := by
  constructor
  · rfl
  · rfl

/-- Size accounting of one fold of `append` calls, started anywhere
below the flush threshold. -/
theorem appendAll_size (oracle : BulkOracle) (as : List AppendArgs) :
    ∀ q : DocumentQueue, q.size + (as.map contrib).sum ≤ QUEUE_LIMIT_BYTES →
      (appendAll oracle q as).size = q.size + (as.map contrib).sum := by
  induction as with
  | nil => intro q _; simp [appendAll]
  | cons a rest ih =>
    intro q hle
    simp only [List.map_cons, List.sum_cons] at hle
    have hc : (if a.text = "" then q.size else q.size + min a.size DOC_SIZE_LIMIT_BYTES)
        = q.size + contrib a := by
      unfold contrib
      split <;> simp
    have hstep : (DocumentQueue.append oracle q a).1
        = { q with size := q.size + contrib a, queue := q.queue ++ [buildBody a] } := by
      unfold DocumentQueue.append
      dsimp only
      rw [hc]
      rw [if_neg (by omega)]
    have h2 : ({ q with size := q.size + contrib a, queue := q.queue ++ [buildBody a] } : DocumentQueue).size
        + (rest.map contrib).sum ≤ QUEUE_LIMIT_BYTES := by
      dsimp only
      omega
    rw [appendAll, hstep, ih _ h2]
    simp
    omega

/-- Claim C4 amended: for every sequence of `append` calls from a fresh
first-generation queue whose total capped contribution stays within the
flush threshold, the final running total equals the sum of
`min(size_i, 10000)` over exactly the appended documents with nonempty
text (documents with empty text contribute nothing). -/
theorem size_total_counts_nonempty_text (oracle : BulkOracle) (ctx : Nat)
    (as : List AppendArgs)
    (h : (as.map contrib).sum ≤ QUEUE_LIMIT_BYTES) :
    (appendAll oracle
        { queue := [], retry_errors := true, size := 0, context := ctx } as).size
      = (as.map contrib).sum := by
  have := appendAll_size oracle as
      { queue := [], retry_errors := true, size := 0, context := ctx }
      (by simpa using h)
  simpa using this

/-- Witness for the amended C4: a single append of a 500-byte document
with nonempty text yields a running total of exactly 500. -/
theorem size_total_counts_nonempty_text_witness :
    (appendAll oracleNil
        { queue := [], retry_errors := true, size := 0, context := 0 }
        [argsSmallText]).size = ([argsSmallText].map contrib).sum :=
  size_total_counts_nonempty_text oracleNil 0 [argsSmallText] (by decide)

/-- Counterexample to claim C6's scenario: appending three documents of
declared size 40,000,000 each (nonempty text) accumulates only
`3 * min(40000000, 10000) = 30000` capped bytes, so the third append does
not trigger an automatic flush. -/
theorem three_big_appends_do_not_flush :
    (DocumentQueue.append oracleNil
      (DocumentQueue.append oracleNil
        (DocumentQueue.append oracleNil
          { queue := [], retry_errors := true, size := 0, context := 0 }
          argsBig).1
        argsBig).1
      argsBig).2 = false ∧
    (DocumentQueue.append oracleNil
      (DocumentQueue.append oracleNil
        (DocumentQueue.append oracleNil
          { queue := [], retry_errors := true, size := 0, context := 0 }
          argsBig).1
        argsBig).1
      argsBig).1.size = 30000 := by
  constructor
  · rfl
  · rfl

/-- Claim C6 amended: an `append` triggers a synchronous flush exactly
when the running total, after adding the appended document's capped
contribution (`min(size, 10000)` when its text is nonempty, else 0),
strictly exceeds `QUEUE_LIMIT_BYTES = 100,000,000` — and never before;
in particular three 40,000,000-byte documents never reach the
threshold. -/
theorem append_flush_iff_threshold (oracle : BulkOracle) (q : DocumentQueue)
    (a : AppendArgs) :
    (DocumentQueue.append oracle q a).2 = true ↔
      QUEUE_LIMIT_BYTES < q.size + contrib a := by
  unfold DocumentQueue.append contrib
  dsimp only
  split <;> split <;> simp_all

/-- Witness for the amended C6: from a queue whose running total already
sits at the threshold, appending a 10,000-byte capped document fires the
automatic flush. -/
theorem append_flush_iff_threshold_witness :
    (DocumentQueue.append oracleNil
      { queue := [], retry_errors := true, size := 100000000, context := 0 }
      argsBig).2 = true :=
  (append_flush_iff_threshold oracleNil
    { queue := [], retry_errors := true, size := 100000000, context := 0 }
    argsBig).mpr (by decide)

/-- The replay lookup-and-mutate step changes a document's metadata
fields only, never its identity. -/
theorem findMutate_map_id (doc_id : String) :
    ∀ (docs : List Document) res, findMutate docs doc_id = some res →
      res.1.map Document._id = docs.map Document._id := by
  intro docs
  induction docs with
  | nil => intro res h; simp [findMutate] at h
  | cons d ds ih =>
    intro res h
    rw [findMutate] at h
    by_cases hd : d._id = doc_id
    · rw [if_pos hd] at h
      cases h
      simp
    · rw [if_neg hd] at h
      revert h
      split
      · intro h; cases h
      · rename_i ds' r heq
        intro h
        cases h
        simpa using ih _ heq

/-- One classification-loop iteration preserves the identities of the
pending list. -/
theorem classifyError_map_id (docs : List Document) (e : BulkError)
    (docs' : List Document) (r : Option Document)
    (h : classifyError docs e = some (docs', r)) :
    docs'.map Document._id = docs.map Document._id := by
  rw [classifyError.eq_def] at h
  revert h
  split
  · intro h; cases h; rfl
  · split
    · split
      · split
        · intro h; cases h
        · split
          · intro h; cases h
          · rename_i heq
            intro h
            cases h
            exact findMutate_map_id _ docs _ heq
      · intro h; cases h; rfl
    · intro h; cases h; rfl

/-- The whole classification loop preserves the identities of the
pending list. -/
theorem processErrors_map_id (errors : List BulkError) :
    ∀ docs : List Document,
      (processErrors docs errors).docs.map Document._id = docs.map Document._id := by
  induction errors with
  | nil => intro docs; rfl
  | cons e rest ih =>
    intro docs
    rw [processErrors]
    split
    · rfl
    · rename_i docs' r heq
      calc (processErrors docs' rest).docs.map Document._id
          = docs'.map Document._id := ih docs'
        _ = docs.map Document._id := classifyError_map_id docs e docs' r heq

/-- Counterexample to claim C5 as stated: after a non-fatally-failing
flush (here: the bulk call succeeds with an empty error list), the
pending sequence is *not* cleared — `send_all` resets `self.size` (line
162) but never empties `self.queue`, so a subsequent flush of the same
queue submits the same document again. -/
theorem send_all_retains_pending_counterexample :
    (DocumentQueue.send_all oracleNil qC5).1.queue = [buildBody argsSmallText] ∧
    (DocumentQueue.send_all oracleNil qC5).1.size = 0 := by
  rw [DocumentQueue.send_all]
  exact ⟨rfl, rfl⟩

/-- Claim C5 amended: after any non-fatally-failing flush of a nonempty
queue, the running size total is zero, but the pending sequence is
retained rather than cleared — same length, same document identities —
so those documents are submitted again by any subsequent flush of the
same queue. -/
theorem send_all_resets_size_retains_ids (oracle : BulkOracle)
    (q : DocumentQueue) (errors : List BulkError)
    (hne : q.queue ≠ []) (hok : oracle q.queue = Except.ok errors) :
    (DocumentQueue.send_all oracle q).1.size = 0 ∧
    (DocumentQueue.send_all oracle q).1.queue.map Document._id
      = q.queue.map Document._id := by
  rw [DocumentQueue.send_all]
  rw [if_neg (by simpa using hne)]
  rw [hok]
  split
  · rename_i a heq
    exact absurd heq (by simp)
  · rename_i errors2 heq
    injection heq with heq2
    subst heq2
    split
    · dsimp only
      split
      · exact ⟨rfl, processErrors_map_id errors q.queue⟩
      · exact ⟨rfl, processErrors_map_id errors q.queue⟩
    · exact ⟨rfl, rfl⟩

/-- Witness for the amended C5: the concrete one-document queue, flushed
with an error-free bulk outcome, ends with size 0 and its document still
pending under the same identity. -/
theorem send_all_resets_size_retains_ids_witness :
    (DocumentQueue.send_all oracleNil qC5).1.size = 0 ∧
    (DocumentQueue.send_all oracleNil qC5).1.queue.map Document._id
      = qC5.queue.map Document._id :=
  send_all_resets_size_retains_ids oracleNil qC5 [] (by decide) rfl

/-- Claim C2, evaluated at the failing input (code bug): a
first-generation flush whose error list holds exactly one
`mapper_parsing_exception` rejection of `docD` produces a replay queue
with exactly one document of `docD`'s identity, but the replay pass
(line 180) writes `replay['user_meta'] = replay['system'] = {}` — it
empties `user_meta`, yet leaves the document's actual system-origin
metadata field `system_meta` untouched (still `{"extra": "x"}`) and
instead adds a brand-new key `system` that no document ever carried, so
the system-origin sub-object is not stripped and the other fields are
not all unchanged. -/
theorem replay_strips_wrong_system_key :
    DocumentQueue.send_all oracleD qD =
      ({ queue := [docDmut], retry_errors := true, size := 0, context := 17 },
        [{ queue := [docDmut], retry_errors := false, size := 0, context := 17 }]) ∧
    docDmut._id = docD._id ∧
    docDmut.user_meta = [] ∧
    docDmut.system_meta = some [("extra", "x")] ∧
    docD.system = none ∧
    docDmut.system = some [] := by
  have hinner := send_all_snd_eq_nil oracleD
    { queue := [docDmut], retry_errors := false, size := 0, context := 17 } rfl
  have key : DocumentQueue.send_all oracleD qD
      = ({ queue := [docDmut], retry_errors := true, size := 0, context := 17 },
          { queue := [docDmut], retry_errors := false, size := 0, context := 17 } ::
            (DocumentQueue.send_all oracleD
              { queue := [docDmut], retry_errors := false, size := 0
                context := 17 }).2) := by
    conv_lhs => rw [DocumentQueue.send_all]
    rfl
  rw [key, hinner]
  exact ⟨rfl, rfl, rfl, rfl, rfl, rfl⟩

/-- The UTF-8 encoding of `n` repetitions of an ASCII character is `n`
bytes long. -/
theorem encodeUtf8_replicate_a (n : Nat) :
    (encodeUtf8 (List.replicate n 'a')).length = n := by
  induction n with
  | zero => rfl
  | succ k ih =>
    have hA : charUtf8 'a' = [97] := by decide
    rw [List.replicate_succ]
    rw [show encodeUtf8 ('a' :: List.replicate k 'a')
        = charUtf8 'a' ++ encodeUtf8 (List.replicate k 'a') from rfl]
    rw [hA, List.length_append, ih]
    simp only [List.length_cons, List.length_nil]
    omega

/-- Claim C7, evaluated at the failing input (code bug): for a
plain-text extension the pipeline stores the fetched body with no
truncation — `get_plain_text` never calls `trim_to_bytes` — so a
10,001-byte ASCII body (exactly what the inclusive ranged read
`bytes=0-10000` returns for a large object) yields a document text of
10,001 encoded bytes, exceeding `DOC_SIZE_LIMIT_BYTES = 10,000`, contrary
to the module's own docstring ("we truncated inbound documents to no
more than DOC_SIZE_LIMIT characters"). -/
theorem plain_text_fetch_exceeds_doc_size_limit :
    get_contents (".txt") (FetchResult.ok longA) id = Except.ok longA ∧
    encBytes longA = 10001 ∧
    DOC_SIZE_LIMIT_BYTES < encBytes longA := by
  have h2 : encBytes longA = 10001 := by
    show (encodeUtf8 (List.replicate 10001 'a')).length = 10001
    exact encodeUtf8_replicate_a 10001
  refine ⟨rfl, h2, ?_⟩
  rw [h2]
  decide

/-- Claim C9: the CONTENT-fetch request built by `call()` carries no
byte-range parameter exactly when the source object size is zero;
otherwise it carries the range `[0, limit]` with
`limit = DOC_SIZE_LIMIT_BYTES = 10,000` (rendered `bytes=0-10000` on the
version-pinned call and `0-10000` on the etag-pinned call). -/
theorem content_fetch_range (bucket key etag : String) (size : Nat)
    (v : Option String) :
    ((call_request bucket key size DOC_SIZE_LIMIT_BYTES etag v).range = none
      ↔ size = 0) ∧
    (size ≠ 0 → truthy v = true →
      (call_request bucket key size DOC_SIZE_LIMIT_BYTES etag v).range
        = some ("bytes=0-" ++ toString DOC_SIZE_LIMIT_BYTES)) ∧
    (size ≠ 0 → truthy v = false →
      (call_request bucket key size DOC_SIZE_LIMIT_BYTES etag v).range
        = some ("0-" ++ toString DOC_SIZE_LIMIT_BYTES)) := by
  unfold call_request
  refine ⟨?_, ?_, ?_⟩ <;> split_ifs <;> simp_all

/-- Witness for C9: a 500-byte object fetch pinned to a version uses the
range `bytes=0-10000`, and a zero-length object fetch carries no range. -/
theorem content_fetch_range_witness :
    (call_request ("b") ("k.txt") 500 DOC_SIZE_LIMIT_BYTES ("e1")
        (some ("v1"))).range
      = some ("bytes=0-" ++ toString DOC_SIZE_LIMIT_BYTES) ∧
    (call_request ("b") ("k.txt") 0 DOC_SIZE_LIMIT_BYTES ("e1")
        (some ("v1"))).range = none :=
  ⟨(content_fetch_range ("b") ("k.txt") ("e1") 500 (some ("v1"))).2.1
      (by decide) (by decide),
    (content_fetch_range ("b") ("k.txt") ("e1") 0 (some ("v1"))).1.mpr rfl⟩

/-- A successful retry loop never reports an attempt number beyond
`max` of its starting attempt and the attempt cap. -/
theorem retryFrom_bound (oracle : Nat → Bool) (d : Nat) :
    ∀ attempt elapsed n, retryFrom oracle d attempt elapsed = some n →
      n ≤ max attempt MAX_RETRY := by
  intro attempt elapsed
  induction attempt, elapsed using retryFrom.induct oracle d with
  | case1 attempt elapsed h =>
    intro n hn
    rw [retryFrom, if_pos h] at hn
    injection hn with hn2
    subst hn2
    exact le_max_left _ _
  | case2 attempt elapsed h1 h2 =>
    intro n hn
    rw [retryFrom, if_neg h1, dif_pos h2] at hn
    cases hn
  | case3 attempt elapsed h1 h2 ih =>
    intro n hn
    rw [retryFrom, if_neg h1, dif_neg h2] at hn
    have hb := ih n hn
    simp only [MAX_RETRY] at *
    omega

/-- Claim C8: the bounded fetch retry stops when the remaining deadline
is exhausted or the attempt count reaches `MAX_RETRY = 10`, whichever
comes first; backoff between attempts is the exponential with
multiplier 2 clamped into `[4, 30]`; and a pinned fetch that fails
retryably twice and succeeds on its third attempt within the deadline
returns success with exactly 3 total attempts. -/
theorem retry_stops_at_cap_or_deadline (oracle : Nat → Bool) (d : Nat) :
    (∀ n, retry_s3_attempts oracle d = some n → n ≤ MAX_RETRY) ∧
    (oracle 1 = false → retry_s3_attempts oracle 0 = none) ∧
    (∀ a, 4 ≤ waitExp a ∧ waitExp a ≤ 30) ∧
    (4 < d → retry_s3_attempts (fun n => decide (3 ≤ n)) d = some 3) := by
  refine ⟨?_, ?_, ?_, ?_⟩
  · intro n hn
    have hb := retryFrom_bound oracle d 1 0 n hn
    simp only [MAX_RETRY] at *
    omega
  · intro h1
    rw [retry_s3_attempts, retryFrom, if_neg (by simp [h1]),
      dif_pos (Or.inr (Nat.le_refl 0))]
  · intro a
    exact ⟨le_max_left _ _, max_le (by norm_num) (min_le_right _ _)⟩
  · intro hd
    have hw : waitExp 1 = 4 := by decide
    rw [retry_s3_attempts, retryFrom, if_neg (by decide),
      dif_neg (by simp only [MAX_RETRY]; omega)]
    rw [retryFrom, if_neg (by decide),
      dif_neg (by simp only [MAX_RETRY]; omega)]
    rw [retryFrom, if_pos (by decide)]

/-- Witness for C8: with deadline 60, an oracle failing on attempts 1
and 2 and succeeding from attempt 3 returns success with exactly 3
attempts. -/
theorem retry_stops_at_cap_or_deadline_witness :
    retry_s3_attempts (fun n => decide (3 ≤ n)) 60 = some 3 :=
  (retry_stops_at_cap_or_deadline (fun n => decide (3 ≤ n)) 60).2.2.2 (by norm_num)

/-- The encoded length of one character by codepoint range. -/
theorem charUtf8_length (c : Char) :
    (charUtf8 c).length = if c.toNat < 128 then 1 else if c.toNat < 2048 then 2
      else if c.toNat < 65536 then 3 else 4 := by
  unfold charUtf8
  dsimp only
  split_ifs <;> rfl

/-- `Char.ofNat` never increases the codepoint (it is the identity on
valid codepoints and 0 otherwise). -/
theorem charOfNat_toNat_le (n : Nat) : (Char.ofNat n).toNat ≤ n := by
  unfold Char.ofNat
  split
  · rename_i h
    simp [Char.ofNatAux, Char.toNat, UInt32.toNat, UInt32.ofNat']
  · exact Nat.zero_le n

/-- Encoded length of a single decoded character, bounded by the byte
budget of the sequence class it was decoded from. -/
theorem encode_single_le (n k : Nat)
    (h : (k = 0 ∧ n < 128) ∨ (k = 1 ∧ n < 2048) ∨ (k = 2 ∧ n < 65536) ∨ k = 3) :
    (encodeUtf8 [Char.ofNat n]).length ≤ 1 + k := by
  have hn := charOfNat_toNat_le n
  have hlen : (encodeUtf8 [Char.ofNat n]).length
      = (charUtf8 (Char.ofNat n)).length := by
    simp [encodeUtf8]
  rw [hlen, charUtf8_length]
  rcases h with ⟨rfl, h⟩ | ⟨rfl, h⟩ | ⟨rfl, h⟩ | rfl <;> split_ifs <;> omega

/-- Range of a continuation byte. -/
theorem isCont_bounds (b : Nat) (h : isCont b = true) : 128 ≤ b ∧ b ≤ 191 := by
  unfold isCont at h
  simp at h
  omega

/-- Range of a valid second byte after a three-byte lead. -/
theorem cont3ok_bounds (b0 b1 : Nat) (h : cont3ok b0 b1 = true) :
    128 ≤ b1 ∧ b1 ≤ 191 := by
  unfold cont3ok isCont at h
  split_ifs at h <;> simp at h <;> omega

/-- Range of a valid second byte after a four-byte lead. -/
theorem cont4ok_bounds (b0 b1 : Nat) (h : cont4ok b0 b1 = true) :
    128 ≤ b1 ∧ b1 ≤ 191 := by
  unfold cont4ok isCont at h
  split_ifs at h <;> simp at h <;> omega

/-- A decode step never consumes more extra bytes than remain. -/
theorem utf8DecodeStep_consumed_le (b0 : Nat) (rest : List Nat) :
    (utf8DecodeStep b0 rest).2 ≤ rest.length := by
  unfold utf8DecodeStep
  rcases rest with _ | ⟨b1, _ | ⟨b2, _ | ⟨b3, rest3⟩⟩⟩ <;>
    (dsimp only; split_ifs <;> simp)

/-- The bytes a decode step emits re-encode to at most the bytes it
consumed (lead byte plus extra). -/
theorem utf8DecodeStep_encode_le (b0 : Nat) (rest : List Nat) :
    (encodeUtf8 (utf8DecodeStep b0 rest).1.toList).length
      ≤ 1 + (utf8DecodeStep b0 rest).2 := by
  unfold utf8DecodeStep
  rcases rest with _ | ⟨b1, _ | ⟨b2, _ | ⟨b3, rest3⟩⟩⟩ <;> dsimp only
  · split_ifs with h1 h2 h3 h4
    · exact encode_single_le b0 0 (Or.inl ⟨rfl, h1⟩)
    · simp [encodeUtf8]
    · simp [encodeUtf8]
    · simp [encodeUtf8]
    · simp [encodeUtf8]
  · split_ifs with h1 h2 h3 h4 h5 h6 h7
    · exact encode_single_le b0 0 (Or.inl ⟨rfl, h1⟩)
    · have hb2 : 194 ≤ b0 ∧ b0 ≤ 223 := by simpa using h2
      have hc := isCont_bounds b1 h3
      exact encode_single_le _ 1 (Or.inr (Or.inl ⟨rfl, by omega⟩))
    · simp [encodeUtf8]
    · simp [encodeUtf8]
    · simp [encodeUtf8]
    · simp [encodeUtf8]
    · simp [encodeUtf8]
    · simp [encodeUtf8]
  · split_ifs with h1 h2 h3 h4 h5 h6 h7 h8 h9
    · exact encode_single_le b0 0 (Or.inl ⟨rfl, h1⟩)
    · have hb2 : 194 ≤ b0 ∧ b0 ≤ 223 := by simpa using h2
      have hc := isCont_bounds b1 h3
      exact encode_single_le _ 1 (Or.inr (Or.inl ⟨rfl, by omega⟩))
    · simp [encodeUtf8]
    · have hb3 : 224 ≤ b0 ∧ b0 ≤ 239 := by simpa using h4
      have hc1 := cont3ok_bounds b0 b1 h5
      have hc2 := isCont_bounds b2 h6
      exact encode_single_le _ 2 (Or.inr (Or.inr (Or.inl ⟨rfl, by omega⟩)))
    · simp [encodeUtf8]
    · simp [encodeUtf8]
    · simp [encodeUtf8]
    · simp [encodeUtf8]
    · simp [encodeUtf8]
    · simp [encodeUtf8]
  · split_ifs with h1 h2 h3 h4 h5 h6 h7 h8 h9 h10
    · exact encode_single_le b0 0 (Or.inl ⟨rfl, h1⟩)
    · have hb2 : 194 ≤ b0 ∧ b0 ≤ 223 := by simpa using h2
      have hc := isCont_bounds b1 h3
      exact encode_single_le _ 1 (Or.inr (Or.inl ⟨rfl, by omega⟩))
    · simp [encodeUtf8]
    · have hb3 : 224 ≤ b0 ∧ b0 ≤ 239 := by simpa using h4
      have hc1 := cont3ok_bounds b0 b1 h5
      have hc2 := isCont_bounds b2 h6
      exact encode_single_le _ 2 (Or.inr (Or.inr (Or.inl ⟨rfl, by omega⟩)))
    · simp [encodeUtf8]
    · simp [encodeUtf8]
    · exact encode_single_le _ 3 (Or.inr (Or.inr (Or.inr rfl)))
    · simp [encodeUtf8]
    · simp [encodeUtf8]
    · simp [encodeUtf8]
    · simp [encodeUtf8]

/-- `encodeUtf8` distributes over append. -/
theorem encodeUtf8_append (xs ys : List Char) :
    encodeUtf8 (xs ++ ys) = encodeUtf8 xs ++ encodeUtf8 ys := by
  induction xs with
  | nil => rfl
  | cons c cs ih => simp [encodeUtf8, ih]

/-- Re-encoding a leniently decoded byte list never produces more bytes
than were decoded: every emitted character re-encodes into at most the
bytes its sequence consumed, and skipped bytes emit nothing. -/
theorem encodeUtf8_decodeIgnore_le (b : List Nat) :
    (encodeUtf8 (decodeIgnore b)).length ≤ b.length := by
  induction b using decodeIgnore.induct with
  | case1 => simp [decodeIgnore, encodeUtf8]
  | case2 b0 rest ih =>
    rw [decodeIgnore]
    rw [encodeUtf8_append, List.length_append]
    have h1 := utf8DecodeStep_consumed_le b0 rest
    have h2 := utf8DecodeStep_encode_le b0 rest
    have h3 : (rest.drop (utf8DecodeStep b0 rest).2).length
        = rest.length - (utf8DecodeStep b0 rest).2 := List.length_drop _ _
    simp only [List.length_cons]
    omega

/-- Claim C10: `trim_to_bytes` is idempotent —
`trim(trim(s, L), L) = trim(s, L)` — and its result re-encodes to at
most `L` bytes: a truncation that lands inside a multi-byte sequence
drops the trailing incomplete sequence via the lenient decode instead of
failing. -/
theorem trim_to_bytes_idempotent_and_bounded (s : List Char) (L : Nat) :
    trim_to_bytes (trim_to_bytes s L) L = trim_to_bytes s L ∧
    (encodeUtf8 (trim_to_bytes s L)).length ≤ L := by
  have hbound : (encodeUtf8 (trim_to_bytes s L)).length ≤ L := by
    unfold trim_to_bytes
    dsimp only
    split_ifs with h
    · exact h
    · calc (encodeUtf8 (decodeIgnore ((encodeUtf8 s).take L))).length
          ≤ ((encodeUtf8 s).take L).length := encodeUtf8_decodeIgnore_le _
        _ ≤ L := by
            rw [List.length_take]
            exact min_le_left _ _
  refine ⟨?_, hbound⟩
  show (if (encodeUtf8 (trim_to_bytes s L)).length ≤ L then trim_to_bytes s L
      else decodeIgnore ((encodeUtf8 (trim_to_bytes s L)).take L))
    = trim_to_bytes s L
  rw [if_pos hbound]
